import Mathlib

/-!
# Verification of the custom 16-bit emulator toolchain

Shallow embedding of the Rust sources of `dare-bea/custom-16bit-emulator`
in Lean 4, together with proofs and refutations of the specification
claims.  The repository contains several coexisting drafts:

* `src/main.rs`            — self-contained draft: `Instruction`, the
  byte encoder (`impl From<Instruction> for Vec<u8>`), the decoder
  (`Instruction::from_iter`) and an execution engine
  (namespace `MainRs` below);
* `utils/src/*`            — `Register`, `ConditionCode`, `Flag`
  (namespace `Utils`);
* `emulator/src/*`         — `Cpu`, `Mmu`, `Emulator::step`
  (namespace `EmuCrate`);
* `src/emulator.rs`        — draft with `handle_interrupt` /
  `handle_interrupt_return` (namespace `LibRs`);
* `src/compile/mod.rs`     — assembler; the back-patch pass is embedded
  in namespace `Compile`.

Machine integers are embedded as `Nat` with explicit `% 2^w` where the
Rust code can overflow; byte streams are `List Nat`; fallible code
returns `Except`.
-/

/-- Decidable equality for `Except`, needed to `decide` concrete
evaluations of fallible operations. -/
instance {ε α : Type} [DecidableEq ε] [DecidableEq α] : DecidableEq (Except ε α)
  | .ok x, .ok y =>
    if h : x = y then .isTrue (h ▸ rfl) else .isFalse (fun hc => h (Except.ok.inj hc))
  | .error x, .error y =>
    if h : x = y then .isTrue (h ▸ rfl) else .isFalse (fun hc => h (Except.error.inj hc))
  | .ok _, .error _ => .isFalse (fun hc => Except.noConfusion hc)
  | .error _, .ok _ => .isFalse (fun hc => Except.noConfusion hc)

/-- `u16::from_le_bytes [lo, hi]`: assemble a 16-bit value from two
bytes, little endian.  The `% 256` reflects that the inputs are `u8`. -/
def u16_from_le (lo hi : Nat) : Nat :=
  lo % 256 + 256 * (hi % 256)

namespace MainRs

/-- `GeneralPurposeRegister` of `src/main.rs`. -/
inductive GeneralPurposeRegister where
  | A | B | C | D
  deriving DecidableEq, Repr

/-- The `#[repr(u8)]` discriminant of a register (`reg as u8`). -/
def GeneralPurposeRegister.code : GeneralPurposeRegister → Nat
  | .A => 0
  | .B => 1
  | .C => 2
  | .D => 3

/-- `Instruction` of `src/main.rs`.  `u16` payloads become `Nat`
(meaningful values are `< 65536`); the condition and flag payloads are
the raw `u8` values. -/
inductive Instruction where
  | LoadFrom (reg : GeneralPurposeRegister)
  | StoreTo (reg : GeneralPurposeRegister)
  | Zero (reg : GeneralPurposeRegister)
  | LoadImmediate (reg : GeneralPurposeRegister) (value : Nat)
  | LoadAddress (address : Nat)
  | LoadIndirect
  | LoadRelative (offset : Nat)
  | LoadStackRelative (offset : Nat)
  | StoreByteAddress (address : Nat)
  | StoreByteIndirect
  | StoreByteRelative (offset : Nat)
  | StoreByteStackRelative (offset : Nat)
  | StoreAddress (address : Nat)
  | StoreIndirect
  | StoreRelative (offset : Nat)
  | StoreStackRelative (offset : Nat)
  | Not
  | Increment
  | Decrement
  | And (reg : GeneralPurposeRegister)
  | Or (reg : GeneralPurposeRegister)
  | Xor (reg : GeneralPurposeRegister)
  | LeftShift (reg : GeneralPurposeRegister)
  | RightShift (reg : GeneralPurposeRegister)
  | Add (reg : GeneralPurposeRegister)
  | Subtract (reg : GeneralPurposeRegister)
  | AddWithCarry (reg : GeneralPurposeRegister)
  | SubtractWithBorrow (reg : GeneralPurposeRegister)
  | Compare (reg : GeneralPurposeRegister)
  | CompareImmediate (value : Nat)
  | IncrementC
  | DecrementC
  | CompareC (reg : GeneralPurposeRegister)
  | CompareCImmediate (value : Nat)
  | Jump (address : Nat)
  | JumpRelative (offset : Nat)
  | JumpIf (cond : Nat) (address : Nat)
  | JumpRelativeIf (cond : Nat) (offset : Nat)
  | Loop (address : Nat)
  | LoopRelative (offset : Nat)
  | Push
  | Pop
  | PushPC
  | PopPC
  | PushFlags
  | PopFlags
  | Input
  | Output
  | SetInterrupt (address : Nat)
  | Clear (flag : Nat)
  | Set (flag : Nat)

namespace Instruction

/-- Low byte of a `u16` (`value as u8`). -/
def lo8 (v : Nat) : Nat := v % 256

/-- High byte of a `u16` (`(value >> 8) as u8`). -/
def hi8 (v : Nat) : Nat := v / 256 % 256

/-- `impl From<Instruction> for Vec<u8>` of `src/main.rs`: the
instruction encoder. -/
def encode : Instruction → List Nat
  | .LoadFrom reg => [0x00 ||| reg.code]
  | .StoreTo reg => [0x04 ||| reg.code]
  | .Zero reg => [0x08 ||| reg.code]
  | .LoadImmediate reg value => [0x0C ||| reg.code, lo8 value, hi8 value]
  | .LoadAddress address => [0x10, lo8 address, hi8 address]
  | .LoadIndirect => [0x11]
  | .LoadRelative offset => [0x12, lo8 offset, hi8 offset]
  | .LoadStackRelative offset => [0x13, lo8 offset, hi8 offset]
  | .StoreAddress address => [0x18, lo8 address, hi8 address]
  | .StoreIndirect => [0x19]
  | .StoreRelative offset => [0x1A, lo8 offset, hi8 offset]
  | .StoreStackRelative offset => [0x1B, lo8 offset, hi8 offset]
  | .StoreByteAddress address => [0x1C, lo8 address, hi8 address]
  | .StoreByteIndirect => [0x1D]
  | .StoreByteRelative offset => [0x1E, lo8 offset, hi8 offset]
  | .StoreByteStackRelative offset => [0x1F, lo8 offset, hi8 offset]
  | .Not => [0x20]
  | .Increment => [0x21]
  | .Decrement => [0x22]
  | .And reg => [0x24 ||| reg.code]
  | .Or reg => [0x28 ||| reg.code]
  | .Xor reg => [0x2C ||| reg.code]
  | .LeftShift reg => [0x30 ||| reg.code]
  | .RightShift reg => [0x34 ||| reg.code]
  | .Add reg => [0x38 ||| reg.code]
  | .Subtract reg => [0x3C ||| reg.code]
  | .AddWithCarry reg => [0x40 ||| reg.code]
  | .SubtractWithBorrow reg => [0x44 ||| reg.code]
  | .Compare reg => [0x48 ||| reg.code]
  | .CompareImmediate value => [0x4C, lo8 value, hi8 value]
  | .IncrementC => [0x51]
  | .DecrementC => [0x52]
  | .CompareC reg => [0x54 ||| reg.code]
  | .CompareCImmediate value => [0x58, lo8 value, hi8 value]
  | .Jump address => [0x60, lo8 address, hi8 address]
  | .Loop address => [0x68, lo8 address, hi8 address]
  | .JumpRelative offset => [0x70, lo8 offset, hi8 offset]
  | .LoopRelative offset => [0x78, lo8 offset, hi8 offset]
  | .JumpIf cond address => [0x80 ||| cond, lo8 address, hi8 address]
  | .JumpRelativeIf cond offset => [0x90 ||| cond, lo8 offset, hi8 offset]
  | .Push => [0xA0]
  | .PushPC => [0xA1]
  | .PushFlags => [0xA2]
  | .Pop => [0xA8]
  | .PopPC => [0xA9]
  | .PopFlags => [0xAA]
  | .Input => [0xB0]
  | .Output => [0xB1]
  | .SetInterrupt address => [0xD0, lo8 address, hi8 address]
  | .Clear flag => [0xE0 ||| flag]
  | .Set flag => [0xF0 ||| flag]

end Instruction

/-- `InstructionError` of `src/main.rs`. -/
inductive InstructionError where
  | InvalidOpcode (byte : Nat)
  | EndOfInput
  deriving DecidableEq, Repr

/-- The register selected by the low two opcode bits
(`match opcode & 3`). -/
def registerOfOpcode (n : Nat) : GeneralPurposeRegister :=
  match n with
  | 0 => .A
  | 1 => .B
  | 2 => .C
  | _ => .D

/-- Read the two operand bytes of a 16-bit operand via the decoder's
`next_byte` closure; on success the total consumed count is 3
(opcode plus both operand bytes). -/
def readOperandWord (rest : List Nat) (k : Nat → Instruction) :
    Except InstructionError (Instruction × Nat) :=
  match rest with
  | a :: b :: _ => .ok (k (u16_from_le a b), 3)
  | _ => .error .EndOfInput

/-- `Instruction::from_iter` of `src/main.rs`: decode one instruction
from a byte stream, returning it together with the number of bytes
consumed.  The Rust `match opcode` with range patterns is rendered as a
chain of conditionals in source order; the catch-all arm is
`unimplemented!()` in Rust (a panic) and is modelled as
`InvalidOpcode opcode`, which no claim below exercises. -/
def from_iter (l : List Nat) : Except InstructionError (Instruction × Nat) :=
  match l with
  | [] => .error .EndOfInput
  | opcode :: rest =>
    let register := registerOfOpcode (opcode &&& 3)
    if opcode ≤ 0x03 then .ok (.LoadFrom register, 1)
    else if opcode ≤ 0x07 then .ok (.StoreTo register, 1)
    else if opcode ≤ 0x0B then .ok (.Zero register, 1)
    else if opcode ≤ 0x0F then readOperandWord rest (.LoadImmediate register)
    else if opcode = 0x10 then readOperandWord rest .LoadAddress
    else if opcode = 0x11 then .ok (.LoadIndirect, 1)
    else if opcode = 0x12 then readOperandWord rest .LoadRelative
    else if opcode = 0x13 then readOperandWord rest .LoadStackRelative
    else if opcode = 0x18 then readOperandWord rest .StoreAddress
    else if opcode = 0x19 then .ok (.StoreIndirect, 1)
    else if opcode = 0x1A then readOperandWord rest .StoreRelative
    else if opcode = 0x1B then readOperandWord rest .StoreStackRelative
    else if opcode = 0x1C then readOperandWord rest .StoreByteAddress
    else if opcode = 0x1D then .ok (.StoreByteIndirect, 1)
    else if opcode = 0x1E then readOperandWord rest .StoreByteRelative
    else if opcode = 0x1F then readOperandWord rest .StoreByteStackRelative
    else if opcode = 0x20 then .ok (.Not, 1)
    else if opcode = 0x21 then .ok (.Increment, 1)
    else if opcode = 0x22 then .ok (.Decrement, 1)
    else if 0x24 ≤ opcode ∧ opcode ≤ 0x27 then .ok (.And register, 1)
    else if 0x28 ≤ opcode ∧ opcode ≤ 0x2B then .ok (.Or register, 1)
    else if 0x2C ≤ opcode ∧ opcode ≤ 0x2F then .ok (.Xor register, 1)
    else if 0x30 ≤ opcode ∧ opcode ≤ 0x33 then .ok (.LeftShift register, 1)
    else if 0x34 ≤ opcode ∧ opcode ≤ 0x37 then .ok (.RightShift register, 1)
    else if 0x38 ≤ opcode ∧ opcode ≤ 0x3B then .ok (.Add register, 1)
    else if 0x3C ≤ opcode ∧ opcode ≤ 0x3F then .ok (.Subtract register, 1)
    else if 0x40 ≤ opcode ∧ opcode ≤ 0x43 then .ok (.AddWithCarry register, 1)
    else if 0x44 ≤ opcode ∧ opcode ≤ 0x47 then .ok (.SubtractWithBorrow register, 1)
    else if 0x48 ≤ opcode ∧ opcode ≤ 0x4B then .ok (.Compare register, 1)
    else if opcode = 0x4C then readOperandWord rest .CompareImmediate
    else if opcode = 0x51 then .ok (.IncrementC, 1)
    else if opcode = 0x52 then .ok (.DecrementC, 1)
    else if 0x54 ≤ opcode ∧ opcode ≤ 0x57 then .ok (.CompareC register, 1)
    else if opcode = 0x58 then readOperandWord rest .CompareCImmediate
    else if opcode = 0x60 then readOperandWord rest .Jump
    else if opcode = 0x68 then readOperandWord rest .Loop
    else if opcode = 0x70 then readOperandWord rest .JumpRelative
    else if opcode = 0x78 then readOperandWord rest .LoopRelative
    else if 0x80 ≤ opcode ∧ opcode ≤ 0x8F then
      readOperandWord rest (.JumpIf (opcode &&& 0xF))
    else if 0x90 ≤ opcode ∧ opcode ≤ 0x9F then
      readOperandWord rest (.JumpRelativeIf (opcode &&& 0xF))
    else if opcode = 0xA0 then .ok (.Push, 1)
    else if opcode = 0xA1 then .ok (.PushPC, 1)
    else if opcode = 0xA2 then .ok (.PushFlags, 1)
    else if opcode = 0xA8 then .ok (.Pop, 1)
    else if opcode = 0xA9 then .ok (.PopPC, 1)
    else if opcode = 0xAA then .ok (.PopFlags, 1)
    else if opcode = 0xB0 then .ok (.Input, 1)
    else if opcode = 0xB1 then .ok (.Output, 1)
    else if opcode = 0xD0 then readOperandWord rest .SetInterrupt
    else if 0xE0 ≤ opcode ∧ opcode ≤ 0xEF then .ok (.Clear (opcode &&& 0xF), 1)
    else if 0xF0 ≤ opcode ∧ opcode ≤ 0xFF then .ok (.Set (opcode &&& 0xF), 1)
    else .error (.InvalidOpcode opcode)

/-- Well-formedness of an instruction value: every `u16` payload fits
in 16 bits, and the condition-code and flag payloads fit in 4 bits (the
side conditions of claim C1). -/
def Instruction.wf : Instruction → Prop
  | .LoadImmediate _ v => v < 65536
  | .LoadAddress v | .LoadRelative v | .LoadStackRelative v => v < 65536
  | .StoreAddress v | .StoreRelative v | .StoreStackRelative v => v < 65536
  | .StoreByteAddress v | .StoreByteRelative v | .StoreByteStackRelative v => v < 65536
  | .CompareImmediate v | .CompareCImmediate v => v < 65536
  | .Jump v | .JumpRelative v | .Loop v | .LoopRelative v => v < 65536
  | .JumpIf c v | .JumpRelativeIf c v => c < 16 ∧ v < 65536
  | .SetInterrupt v => v < 65536
  | .Clear f | .Set f => f < 16
  | _ => True

end MainRs

namespace MainRs

set_option maxHeartbeats 3200000 in
open Instruction in
/-- **C1.**  For every instruction value whose payloads are in range
(`u16` payloads below 2^16, condition/flag payloads below 2^4),
encoding with `impl From<Instruction> for Vec<u8>` and decoding with
`Instruction::from_iter` round-trips, and the reported consumed count
equals the length of the encoded form. -/
theorem encode_from_iter_round_trip (i : Instruction) (h : i.wf) :
    from_iter (encode i) = .ok (i, (encode i).length) := by
  cases i
  case LoadFrom reg => cases reg <;> simp [encode, from_iter, readOperandWord, registerOfOpcode, GeneralPurposeRegister.code]
  case StoreTo reg => cases reg <;> simp [encode, from_iter, readOperandWord, registerOfOpcode, GeneralPurposeRegister.code]
  case Zero reg => cases reg <;> simp [encode, from_iter, readOperandWord, registerOfOpcode, GeneralPurposeRegister.code]
  case LoadImmediate reg v =>
    have hv : v < 65536 := h
    cases reg <;> (simp [encode, from_iter, readOperandWord, registerOfOpcode, GeneralPurposeRegister.code, u16_from_le, lo8, hi8]; omega)
  case LoadAddress v =>
    have hv : v < 65536 := h
    simp [encode, from_iter, readOperandWord, u16_from_le, lo8, hi8]; omega
  case LoadIndirect => simp [encode, from_iter]
  case LoadRelative v =>
    have hv : v < 65536 := h
    simp [encode, from_iter, readOperandWord, u16_from_le, lo8, hi8]; omega
  case LoadStackRelative v =>
    have hv : v < 65536 := h
    simp [encode, from_iter, readOperandWord, u16_from_le, lo8, hi8]; omega
  case StoreAddress v =>
    have hv : v < 65536 := h
    simp [encode, from_iter, readOperandWord, u16_from_le, lo8, hi8]; omega
  case StoreIndirect => simp [encode, from_iter]
  case StoreRelative v =>
    have hv : v < 65536 := h
    simp [encode, from_iter, readOperandWord, u16_from_le, lo8, hi8]; omega
  case StoreStackRelative v =>
    have hv : v < 65536 := h
    simp [encode, from_iter, readOperandWord, u16_from_le, lo8, hi8]; omega
  case StoreByteAddress v =>
    have hv : v < 65536 := h
    simp [encode, from_iter, readOperandWord, u16_from_le, lo8, hi8]; omega
  case StoreByteIndirect => simp [encode, from_iter]
  case StoreByteRelative v =>
    have hv : v < 65536 := h
    simp [encode, from_iter, readOperandWord, u16_from_le, lo8, hi8]; omega
  case StoreByteStackRelative v =>
    have hv : v < 65536 := h
    simp [encode, from_iter, readOperandWord, u16_from_le, lo8, hi8]; omega
  case Not => simp [encode, from_iter]
  case Increment => simp [encode, from_iter]
  case Decrement => simp [encode, from_iter]
  case And reg => cases reg <;> simp [encode, from_iter, registerOfOpcode, GeneralPurposeRegister.code]
  case Or reg => cases reg <;> simp [encode, from_iter, registerOfOpcode, GeneralPurposeRegister.code]
  case Xor reg => cases reg <;> simp [encode, from_iter, registerOfOpcode, GeneralPurposeRegister.code]
  case LeftShift reg => cases reg <;> simp [encode, from_iter, registerOfOpcode, GeneralPurposeRegister.code]
  case RightShift reg => cases reg <;> simp [encode, from_iter, registerOfOpcode, GeneralPurposeRegister.code]
  case Add reg => cases reg <;> simp [encode, from_iter, registerOfOpcode, GeneralPurposeRegister.code]
  case Subtract reg => cases reg <;> simp [encode, from_iter, registerOfOpcode, GeneralPurposeRegister.code]
  case AddWithCarry reg => cases reg <;> simp [encode, from_iter, registerOfOpcode, GeneralPurposeRegister.code]
  case SubtractWithBorrow reg => cases reg <;> simp [encode, from_iter, registerOfOpcode, GeneralPurposeRegister.code]
  case Compare reg => cases reg <;> simp [encode, from_iter, registerOfOpcode, GeneralPurposeRegister.code]
  case CompareImmediate v =>
    have hv : v < 65536 := h
    simp [encode, from_iter, readOperandWord, u16_from_le, lo8, hi8]; omega
  case IncrementC => simp [encode, from_iter]
  case DecrementC => simp [encode, from_iter]
  case CompareC reg => cases reg <;> simp [encode, from_iter, registerOfOpcode, GeneralPurposeRegister.code]
  case CompareCImmediate v =>
    have hv : v < 65536 := h
    simp [encode, from_iter, readOperandWord, u16_from_le, lo8, hi8]; omega
  case Jump v =>
    have hv : v < 65536 := h
    simp [encode, from_iter, readOperandWord, u16_from_le, lo8, hi8]; omega
  case Loop v =>
    have hv : v < 65536 := h
    simp [encode, from_iter, readOperandWord, u16_from_le, lo8, hi8]; omega
  case JumpRelative v =>
    have hv : v < 65536 := h
    simp [encode, from_iter, readOperandWord, u16_from_le, lo8, hi8]; omega
  case LoopRelative v =>
    have hv : v < 65536 := h
    simp [encode, from_iter, readOperandWord, u16_from_le, lo8, hi8]; omega
  case JumpIf c v =>
    obtain ⟨hc, hv⟩ : c < 16 ∧ v < 65536 := h
    interval_cases c <;>
      simp [encode, from_iter, readOperandWord, u16_from_le, lo8, hi8] <;>
      first
        | omega
        | exact ⟨by decide, by omega⟩
  case JumpRelativeIf c v =>
    obtain ⟨hc, hv⟩ : c < 16 ∧ v < 65536 := h
    interval_cases c <;>
      simp [encode, from_iter, readOperandWord, u16_from_le, lo8, hi8] <;>
      first
        | omega
        | exact ⟨by decide, by omega⟩
  case Push => simp [encode, from_iter]
  case Pop => simp [encode, from_iter]
  case PushPC => simp [encode, from_iter]
  case PopPC => simp [encode, from_iter]
  case PushFlags => simp [encode, from_iter]
  case PopFlags => simp [encode, from_iter]
  case Input => simp [encode, from_iter]
  case Output => simp [encode, from_iter]
  case SetInterrupt v =>
    have hv : v < 65536 := h
    simp [encode, from_iter, readOperandWord, u16_from_le, lo8, hi8]; omega
  case Clear f =>
    have hf : f < 16 := h
    interval_cases f <;>
      simp [encode, from_iter, readOperandWord, registerOfOpcode, GeneralPurposeRegister.code] <;>
      decide
  case Set f =>
    have hf : f < 16 := h
    interval_cases f <;>
      simp [encode, from_iter, readOperandWord, registerOfOpcode, GeneralPurposeRegister.code] <;>
      decide

/-- Witness for C1: the round-trip theorem applied to the concrete
instruction `JumpIf 5 0xBEEF`. -/
theorem encode_from_iter_round_trip_witness :
    Instruction.wf (.JumpIf 5 0xBEEF) ∧
      from_iter (Instruction.encode (.JumpIf 5 0xBEEF)) =
        .ok (.JumpIf 5 0xBEEF, (Instruction.encode (.JumpIf 5 0xBEEF)).length) :=
  ⟨⟨by omega, by omega⟩,
    encode_from_iter_round_trip (.JumpIf 5 0xBEEF) ⟨by omega, by omega⟩⟩

end MainRs

namespace MainRs

namespace flag

def ZERO : Nat := 0
def SIGN : Nat := 1
def CARRY : Nat := 2
def OVERFLOW : Nat := 3
def INTERRUPT : Nat := 14
def HALT : Nat := 15

end flag

structure Emulator where
  a : Nat
  b : Nat
  c : Nat
  d : Nat
  pc : Nat
  sp : Nat
  flags : Nat
  memory : Nat → Nat

def Emulator.register (e : Emulator) : GeneralPurposeRegister → Nat
  | .A => e.a
  | .B => e.b
  | .C => e.c
  | .D => e.d

def set_operation_flags (flags value : Nat) : Nat :=
  let f := flags &&&
    (0xFFFF ^^^ (1 <<< flag.ZERO ||| 1 <<< flag.SIGN ||| 1 <<< flag.CARRY ||| 1 <<< flag.OVERFLOW))
  let f := if value = 0 then f ||| 1 <<< flag.ZERO else f
  if value &&& 0x8000 ≠ 0 then f ||| 1 <<< flag.SIGN else f

inductive LogicalOp where
  | notA
  | and (reg : GeneralPurposeRegister)
  | or (reg : GeneralPurposeRegister)
  | xor (reg : GeneralPurposeRegister)

def execute_logical (e : Emulator) : LogicalOp → Emulator
  | .notA =>
    let a := 0xFFFF ^^^ e.a
    { e with a := a, flags := set_operation_flags e.flags a }
  | .and reg =>
    let a := e.a &&& e.register reg
    { e with a := a, flags := set_operation_flags e.flags a }
  | .or reg =>
    let a := e.a ||| e.register reg
    { e with a := a, flags := set_operation_flags e.flags a }
  | .xor reg =>
    let a := e.a ^^^ e.register reg
    { e with a := a, flags := set_operation_flags e.flags a }

lemma sof_unfold (flags value : Nat) :
    set_operation_flags flags value =
      ((if value &&& 0x8000 ≠ 0 then
          (if value = 0 then (flags &&& 65520) ||| 1 else flags &&& 65520) ||| 2
        else
          if value = 0 then (flags &&& 65520) ||| 1 else flags &&& 65520)) := by
  have hm : (0xFFFF ^^^
      (1 <<< flag.ZERO ||| 1 <<< flag.SIGN ||| 1 <<< flag.CARRY ||| 1 <<< flag.OVERFLOW)) =
      65520 := by decide
  have h0 : (1 <<< flag.ZERO) = 1 := by decide
  have h1 : (1 <<< flag.SIGN) = 2 := by decide
  simp only [set_operation_flags]
  simp only [hm]
  simp only [h0, h1]

lemma sof_carry (flags value : Nat) :
    (set_operation_flags flags value).testBit 2 = false := by
  rw [sof_unfold]
  split <;> split <;>
    simp [Nat.testBit_lor, Nat.testBit_land,
      show Nat.testBit 65520 2 = false from by decide,
      show Nat.testBit 2 2 = false from by decide,
      show Nat.testBit 1 2 = false from by decide]

lemma sof_overflow (flags value : Nat) :
    (set_operation_flags flags value).testBit 3 = false := by
  rw [sof_unfold]
  split <;> split <;>
    simp [Nat.testBit_lor, Nat.testBit_land,
      show Nat.testBit 65520 3 = false from by decide,
      show Nat.testBit 2 3 = false from by decide,
      show Nat.testBit 1 3 = false from by decide]

lemma sof_zero (flags value : Nat) :
    (set_operation_flags flags value).testBit 0 = decide (value = 0) := by
  rw [sof_unfold]
  split <;> split <;>
    simp_all [Nat.testBit_lor, Nat.testBit_land,
      show Nat.testBit 65520 0 = false from by decide,
      show Nat.testBit 2 0 = false from by decide,
      show Nat.testBit 1 0 = true from by decide]

lemma sof_sign (flags value : Nat) :
    (set_operation_flags flags value).testBit 1 = decide (value &&& 0x8000 ≠ 0) := by
  rw [sof_unfold]
  split <;> split <;>
    simp_all [Nat.testBit_lor, Nat.testBit_land,
      show Nat.testBit 65520 1 = false from by decide,
      show Nat.testBit 2 1 = true from by decide,
      show Nat.testBit 1 1 = false from by decide]

lemma tb_small (c i : Nat) (hc : c < 16) (h4 : 4 ≤ i) : Nat.testBit c i = false := by
  apply Nat.testBit_lt_two_pow
  have h16 : (16 : Nat) ≤ 2 ^ i := by
    calc (16 : Nat) = 2 ^ 4 := by norm_num
    _ ≤ 2 ^ i := Nat.pow_le_pow_right (by norm_num) h4
  omega

lemma tb_65520_mid (i : Nat) (h4 : 4 ≤ i) (h16 : i < 16) : Nat.testBit 65520 i = true := by
  interval_cases i <;> decide

lemma sof_high (flags value i : Nat) (hf : flags < 65536) (h4 : 4 ≤ i) :
    (set_operation_flags flags value).testBit i = flags.testBit i := by
  rw [sof_unfold]
  rcases Nat.lt_or_ge i 16 with hi | hi
  · split <;> split <;>
      simp [Nat.testBit_lor, Nat.testBit_land, tb_65520_mid i h4 hi,
        tb_small 1 i (by omega) h4, tb_small 2 i (by omega) h4]
  · have hpow : (65536 : Nat) ≤ 2 ^ i := by
      calc (65536 : Nat) = 2 ^ 16 := by norm_num
      _ ≤ 2 ^ i := Nat.pow_le_pow_right (by norm_num) hi
    have hm : Nat.testBit 65520 i = false := Nat.testBit_lt_two_pow (by omega)
    have hfl : flags.testBit i = false := Nat.testBit_lt_two_pow (by omega)
    split <;> split <;>
      simp [Nat.testBit_lor, Nat.testBit_land, hm, hfl,
        tb_small 1 i (by omega) h4, tb_small 2 i (by omega) h4]

/-- A state whose FLAGS word has only the CARRY bit set. -/
def carrySetState : Emulator :=
  { a := 0, b := 0, c := 0, d := 0, pc := 0, sp := 0,
    flags := 1 <<< flag.CARRY, memory := fun _ => 0 }

/-- **C2, counterexample.**  Executing `NOT` from a state whose CARRY
flag is set clears CARRY: logical instructions do not leave the CARRY
bit unchanged. -/
theorem logical_ops_preserve_carry_counterexample :
    (execute_logical carrySetState .notA).flags.testBit flag.CARRY ≠
      carrySetState.flags.testBit flag.CARRY := by decide

/-- **C2, amended.**  Every logical instruction (`NOT`, `AND`, `OR`,
`XOR`) clears the CARRY and OVERFLOW flag bits to 0 (rather than
preserving them), sets ZERO and SIGN from the result, and preserves all
flag bits above bit 3. -/
theorem logical_ops_clear_carry_overflow (e : Emulator) (op : LogicalOp)
    (hf : e.flags < 65536) :
    ((execute_logical e op).flags.testBit flag.CARRY = false) ∧
    ((execute_logical e op).flags.testBit flag.OVERFLOW = false) ∧
    ((execute_logical e op).flags.testBit flag.ZERO
        = decide ((execute_logical e op).a = 0)) ∧
    ((execute_logical e op).flags.testBit flag.SIGN
        = decide ((execute_logical e op).a &&& 0x8000 ≠ 0)) ∧
    (∀ i, 4 ≤ i → (execute_logical e op).flags.testBit i = e.flags.testBit i) := by
  cases op <;>
    exact ⟨sof_carry _ _, sof_overflow _ _, sof_zero _ _, sof_sign _ _,
      fun i hi => sof_high _ _ i hf hi⟩

/-- Witness for the amended C2 at a concrete state. -/
theorem logical_ops_clear_carry_overflow_witness :
    carrySetState.flags < 65536 ∧
      (execute_logical carrySetState .notA).flags.testBit flag.CARRY = false :=
  ⟨by decide, (logical_ops_clear_carry_overflow carrySetState .notA (by decide)).1⟩

end MainRs

namespace Utils

/-- `Register` of `utils/src/register.rs`. -/
inductive Register where
  | A | B | C | D | Sp | Pc | Flags
  deriving DecidableEq, Repr

/-- `impl TryFrom<u8> for Register`: codes 0-3 and 5-7 are the seven
registers; everything else (including the reserved code 4) errors. -/
def Register.try_from (value : Nat) : Except Unit Register :=
  if value = 0 then .ok .A
  else if value = 1 then .ok .B
  else if value = 2 then .ok .C
  else if value = 3 then .ok .D
  else if value = 5 then .ok .Sp
  else if value = 6 then .ok .Pc
  else if value = 7 then .ok .Flags
  else .error ()

/-- `Register::pair_from`: destination from the high nibble, source
from the low nibble, each via `try_from` (the first failing conversion
propagates, as with the Rust `?` operator). -/
def Register.pair_from (value : Nat) : Except Unit (Register × Register) :=
  match try_from (value >>> 4) with
  | .error e => .error e
  | .ok dst =>
    match try_from (value &&& 0xF) with
    | .error e => .error e
    | .ok src => .ok (dst, src)

/-- `ConditionCode` of `utils/src/condition.rs`. -/
inductive ConditionCode where
  | B | BE | AE | A | L | LE | GE | G | Z | S | C | O | NZ | NS | NC | NO
  deriving DecidableEq, Repr

/-- `impl TryFrom<u8> for ConditionCode`: all sixteen 4-bit values are
accepted (0x4 decodes to `B` and 0xC to `AE`); bytes above 0xF error. -/
def ConditionCode.try_from (value : Nat) : Except Unit ConditionCode :=
  if value = 0x4 then .ok .B
  else if value = 0x5 then .ok .BE
  else if value = 0xC then .ok .AE
  else if value = 0xD then .ok .A
  else if value = 0x6 then .ok .L
  else if value = 0x7 then .ok .LE
  else if value = 0xE then .ok .GE
  else if value = 0xF then .ok .G
  else if value = 0x0 then .ok .Z
  else if value = 0x1 then .ok .S
  else if value = 0x2 then .ok .C
  else if value = 0x3 then .ok .O
  else if value = 0x8 then .ok .NZ
  else if value = 0x9 then .ok .NS
  else if value = 0xA then .ok .NC
  else if value = 0xB then .ok .NO
  else .error ()

/-- Modelled from the spec: `ConditionCode::meets` is called by
`emulator/src/step.rs` but is not defined anywhere under `src/`.  Its
flag-predicate semantics are taken from the specification's condition
table (flag bits per `utils/src/flag.rs`: ZERO = 0, SIGN = 1,
CARRY = 2, OVERFLOW = 3). -/
def ConditionCode.meets (c : ConditionCode) (flags : Nat) : Bool :=
  let z := flags.testBit 0
  let s := flags.testBit 1
  let cy := flags.testBit 2
  let o := flags.testBit 3
  match c with
  | .Z => z
  | .S => s
  | .C => cy
  | .O => o
  | .B => cy
  | .BE => cy || z
  | .L => s != o
  | .LE => z || (s != o)
  | .NZ => !z
  | .NS => !s
  | .NC => !cy
  | .NO => !o
  | .A => !cy
  | .AE => !cy && !z
  | .GE => s == o
  | .G => !z && (s == o)

/-- `Flag` of `utils/src/flag.rs`. -/
inductive Flag where
  | Zero | Sign | Carry | Overflow | EnableInterrupt | Halt
  deriving DecidableEq, Repr

/-- `impl From<&Flag> for u8`: the bit number of each flag. -/
def Flag.code : Flag → Nat
  | .Zero => 0
  | .Sign => 1
  | .Carry => 2
  | .Overflow => 3
  | .EnableInterrupt => 6
  | .Halt => 7

/-- `Flag::to_bitmask`: `1u16 << u8::from(self)`. -/
def Flag.to_bitmask (f : Flag) : Nat := 1 <<< f.code

end Utils

namespace EmuCrate

open Utils

/-- `Cpu` of `emulator/src/cpu.rs`; each field is a `u16`. -/
structure Cpu where
  a : Nat
  b : Nat
  c : Nat
  d : Nat
  sp : Nat
  pc : Nat
  flags : Nat
  deriving DecidableEq, Repr

/-- `impl Default for Cpu` (also `Cpu::new`): zeroed registers with
SP = 0x7F00. -/
def Cpu.new : Cpu :=
  { a := 0, b := 0, c := 0, d := 0, sp := 0x7F00, pc := 0x0000, flags := 0 }

/-- `Cpu::register`. -/
def Cpu.register (cpu : Cpu) : Register → Nat
  | .A => cpu.a
  | .B => cpu.b
  | .C => cpu.c
  | .D => cpu.d
  | .Sp => cpu.sp
  | .Pc => cpu.pc
  | .Flags => cpu.flags

/-- `Cpu::register_mut` followed by an assignment. -/
def Cpu.setReg (cpu : Cpu) : Register → Nat → Cpu
  | .A, v => { cpu with a := v }
  | .B, v => { cpu with b := v }
  | .C, v => { cpu with c := v }
  | .D, v => { cpu with d := v }
  | .Sp, v => { cpu with sp := v }
  | .Pc, v => { cpu with pc := v }
  | .Flags, v => { cpu with flags := v }

/-- `Mmu` of `emulator/src/memory.rs`: a `ChainedIO` of a 32 KiB RAM
cursor followed by a 32 KiB ROM cursor, 64 KiB in total.  Each array
cell holds a byte. -/
structure Mmu where
  ram : Nat → Nat
  rom : Nat → Nat

/-- `Mmu::read_byte`: seek to `pos` and read one byte.  `pos` is a
`u16`, hence the `% 65536`; `ChainedIO::read` serves positions below
`len_first = 0x8000` from the RAM cursor and the rest from the ROM
cursor at `pos - 0x8000`, and a one-byte `read_exact` at any `u16`
position is inside the 64 KiB total, so the `io::Result` is always
`Ok`.  The seek position is overwritten before every read, so the
method is modelled as a pure function.  `% 256` models the `u8` cell. -/
def Mmu.read_byte (m : Mmu) (pos : Nat) : Nat :=
  if pos % 65536 < 0x8000 then m.ram (pos % 65536) % 256
  else m.rom (pos % 65536 - 0x8000) % 256

/-- `Mmu::read_word`: little-endian word from the byte at `pos` and
the byte at `pos.wrapping_add(1)`. -/
def Mmu.read_word (m : Mmu) (pos : Nat) : Nat :=
  u16_from_le (m.read_byte pos) (m.read_byte ((pos + 1) % 65536))

/-- Modelled from the spec: `Mmu::write_byte` is called by
`emulator/src/step.rs` but not defined under `src/`; modelled as the
one-byte `ChainedIO` write at `pos`, mirroring `read_byte` (the
ChainedIO `Write` implementation in `utils/src/chained_io.rs`
dispatches exactly like `read`). -/
def Mmu.write_byte (m : Mmu) (pos v : Nat) : Mmu :=
  if pos % 65536 < 0x8000 then
    { m with ram := fun i => if i = pos % 65536 then v % 256 else m.ram i }
  else
    { m with rom := fun i => if i = pos % 65536 - 0x8000 then v % 256 else m.rom i }

/-- Modelled from the spec: `Mmu::write_word` is called by
`emulator/src/step.rs` but not defined under `src/`; modelled as two
little-endian byte writes, mirroring `read_word`. -/
def Mmu.write_word (m : Mmu) (pos v : Nat) : Mmu :=
  (m.write_byte pos (v % 256)).write_byte ((pos + 1) % 65536) (v / 256 % 256)

/-- `Emulator` of `emulator/src/lib.rs`. -/
structure Emulator where
  cpu : Cpu
  memory : Mmu

/-- `Emulator::reset`: fresh `Cpu`, PC loaded from the word at 0xFFFE;
a zero reset vector asserts HALT. -/
def reset (e : Emulator) : Emulator :=
  let cpu := Cpu.new
  let cpu := { cpu with pc := e.memory.read_word 0xFFFE }
  let cpu :=
    if cpu.pc = 0 then { cpu with flags := cpu.flags ||| Flag.Halt.to_bitmask }
    else cpu
  { e with cpu := cpu }

/-- `Emulator::next_byte`: fetch the byte at PC and advance PC by 1
(wrapping). -/
def next_byte (e : Emulator) : Nat × Emulator :=
  (e.memory.read_byte e.cpu.pc,
    { e with cpu := { e.cpu with pc := (e.cpu.pc + 1) % 65536 } })

/-- `Emulator::next_word`: fetch the word at PC and advance PC by 2
(wrapping). -/
def next_word (e : Emulator) : Nat × Emulator :=
  (e.memory.read_word e.cpu.pc,
    { e with cpu := { e.cpu with pc := (e.cpu.pc + 2) % 65536 } })

/-- `Emulator::push`: decrement SP by 2 (wrapping) then write the word
at the new SP. -/
def push (e : Emulator) (value : Nat) : Emulator :=
  let sp := (e.cpu.sp + 65536 - 2) % 65536
  { e with cpu := { e.cpu with sp := sp },
           memory := e.memory.write_word sp value }

/-- `EmulationError` of `emulator/src/step.rs`.  (`IOError` is never
produced in this model because every `Mmu` access at a `u16` position
succeeds.) -/
inductive EmulationError where
  | IOError
  | RegisterIndexError
  | InvalidOpcode (byte : Nat)
  | InvalidCondition
  deriving DecidableEq, Repr

/-- The outcome of a `step` besides normal completion: an
`EmulationError` returned as `Err`, or a Rust panic
(the `unreachable!()` arm). -/
inductive StepOutcome where
  | err (e : EmulationError)
  | panicked
  deriving DecidableEq, Repr

/-- `self.cpu.pc.wrapping_add_signed(byte as i8 as i16)`: two's
complement addition of a sign-extended byte, modulo 2^16 (adding
`off + 0xFF00` is adding `off - 256`). -/
def wrapping_add_signed8 (pc off : Nat) : Nat :=
  (pc + (if off % 256 < 128 then off % 256 else off % 256 + 0xFF00)) % 65536

/-- `Register::try_from(op & 0x3).unwrap()`: the low two opcode bits
always name a general-purpose register, so the unwrap cannot panic. -/
def regLow2 (n : Nat) : Register :=
  match n with
  | 0 => .A
  | 1 => .B
  | 2 => .C
  | _ => .D

/-- `Emulator::step` of `emulator/src/step.rs`.  The result pairs the
final state (Rust mutates `self` in place, so partial mutations before
an early return are kept) with `none` for `Ok(())`, or `some` exit for
an `Err` or a panic.  The `match` on the opcode is rendered as a chain
of conditionals in source order; the branch-family arms render the
inner `match op & !0x07` (whose `_` arm is `unreachable!()`, reached
exactly when a conditional branch's condition holds, because the
`0x30` arm carries a `if !meets` guard). -/
def step (e0 : Emulator) : Emulator × Option StepOutcome :=
  let (op, e) := next_byte e0
  -- 0x00: LD addr
  if op = 0x00 then
    let (addr, e) := next_word e
    ({ e with cpu := { e.cpu with a := e.memory.read_byte addr } }, none)
  -- 0x01: LD addr, SP
  else if op = 0x01 then
    let (w, e) := next_word e
    let addr := (w + e.cpu.sp) % 65536
    ({ e with cpu := { e.cpu with a := e.memory.read_byte addr } }, none)
  -- 0x03: LDS dst, src
  else if op = 0x03 then
    let (b, e) := next_byte e
    match Register.pair_from b with
    | .error _ => (e, some (.err .RegisterIndexError))
    | .ok (dst, src) =>
      let v := (e.memory.read_byte (e.cpu.register src) + e.cpu.sp) % 65536
      ({ e with cpu := e.cpu.setReg dst v }, none)
  -- 0x04: LDW addr
  else if op = 0x04 then
    let (addr, e) := next_word e
    ({ e with cpu := { e.cpu with a := e.memory.read_word addr } }, none)
  -- 0x05: LDW addr, SP
  else if op = 0x05 then
    let (w, e) := next_word e
    let addr := (w + e.cpu.sp) % 65536
    ({ e with cpu := { e.cpu with a := e.memory.read_word addr } }, none)
  -- 0x07: LDSW dst, src
  else if op = 0x07 then
    let (b, e) := next_byte e
    match Register.pair_from b with
    | .error _ => (e, some (.err .RegisterIndexError))
    | .ok (dst, src) =>
      let v := (e.memory.read_word (e.cpu.register src) + e.cpu.sp) % 65536
      ({ e with cpu := e.cpu.setReg dst v }, none)
  -- 0x08-0x0B: LD addr, reg
  else if 0x08 ≤ op ∧ op ≤ 0x0B then
    let (w, e) := next_word e
    let addr := (w + e.cpu.register (regLow2 (op &&& 0x3))) % 65536
    ({ e with cpu := { e.cpu with a := e.memory.read_byte addr } }, none)
  -- 0x0C-0x0F: LDW addr, reg
  else if 0x0C ≤ op ∧ op ≤ 0x0F then
    let (w, e) := next_word e
    let addr := (w + e.cpu.register (regLow2 (op &&& 0x3))) % 65536
    ({ e with cpu := { e.cpu with a := e.memory.read_word addr } }, none)
  -- 0x10: ST addr
  else if op = 0x10 then
    let (addr, e) := next_word e
    ({ e with memory := e.memory.write_byte addr (e.cpu.a % 256) }, none)
  -- 0x11: ST addr, sp
  else if op = 0x11 then
    let (w, e) := next_word e
    let addr := (w + e.cpu.sp) % 65536
    ({ e with memory := e.memory.write_byte addr (e.cpu.a % 256) }, none)
  -- 0x13: STS dst, src
  else if op = 0x13 then
    let (b, e) := next_byte e
    match Register.pair_from b with
    | .error _ => (e, some (.err .RegisterIndexError))
    | .ok (dst, src) =>
      ({ e with memory := e.memory.write_byte (e.cpu.register dst) (e.cpu.register src % 256) }, none)
  -- 0x14: STW addr
  else if op = 0x14 then
    let (addr, e) := next_word e
    ({ e with memory := e.memory.write_word addr e.cpu.a }, none)
  -- 0x15: STW addr, sp
  else if op = 0x15 then
    let (w, e) := next_word e
    let addr := (w + e.cpu.sp) % 65536
    ({ e with memory := e.memory.write_word addr e.cpu.a }, none)
  -- 0x17: STSW dst, src
  else if op = 0x17 then
    let (b, e) := next_byte e
    match Register.pair_from b with
    | .error _ => (e, some (.err .RegisterIndexError))
    | .ok (dst, src) =>
      ({ e with memory := e.memory.write_word (e.cpu.register dst) (e.cpu.register src) }, none)
  -- 0x18-0x1B: ST addr, reg
  else if 0x18 ≤ op ∧ op ≤ 0x1B then
    let (w, e) := next_word e
    let addr := (w + e.cpu.register (regLow2 (op &&& 0x3))) % 65536
    ({ e with memory := e.memory.write_byte addr (e.cpu.a % 256) }, none)
  -- 0x1C-0x1F: STW addr, reg
  else if 0x1C ≤ op ∧ op ≤ 0x1F then
    let (w, e) := next_word e
    let addr := (w + e.cpu.register (regLow2 (op &&& 0x3))) % 65536
    ({ e with memory := e.memory.write_word addr e.cpu.a }, none)
  -- 0x20-0x23: LDI addr, #imm8
  else if 0x20 ≤ op ∧ op ≤ 0x23 then
    let (b, e) := next_byte e
    ({ e with cpu := e.cpu.setReg (regLow2 (op &&& 0x3)) b }, none)
  -- 0x24-0x27: LDI addr, #imm16
  else if 0x24 ≤ op ∧ op ≤ 0x27 then
    let (w, e) := next_word e
    ({ e with cpu := e.cpu.setReg (regLow2 (op &&& 0x3)) w }, none)
  -- 0x28 | 0x30 | 0x38: JMP rel, PC
  else if op = 0x28 ∨ op = 0x30 ∨ op = 0x38 then
    if op &&& 0xF8 = 0x28 then
      let pcBase := e.cpu.pc
      let (off, e) := next_byte e
      ({ e with cpu := { e.cpu with pc := wrapping_add_signed8 pcBase off } }, none)
    else if op &&& 0xF8 = 0x30 then
      let (cb, e) := next_byte e
      match ConditionCode.try_from cb with
      | .error _ => (e, some (.err .InvalidCondition))
      | .ok cc =>
        if cc.meets e.cpu.flags then (e, some .panicked)
        else (e, none)
    else
      let e := push e e.cpu.pc
      let pcBase := e.cpu.pc
      let (off, e) := next_byte e
      ({ e with cpu := { e.cpu with pc := wrapping_add_signed8 pcBase off } }, none)
  -- 0x29 | 0x31 | 0x39: JMP addr
  else if op = 0x29 ∨ op = 0x31 ∨ op = 0x39 then
    if op &&& 0xF8 = 0x28 then
      let (w, e) := next_word e
      ({ e with cpu := { e.cpu with pc := w } }, none)
    else if op &&& 0xF8 = 0x30 then
      let (cb, e) := next_byte e
      match ConditionCode.try_from cb with
      | .error _ => (e, some (.err .InvalidCondition))
      | .ok cc =>
        if cc.meets e.cpu.flags then (e, some .panicked)
        else (e, none)
    else
      let e := push e e.cpu.pc
      let (w, e) := next_word e
      ({ e with cpu := { e.cpu with pc := w } }, none)
  -- 0x2A | 0x32 | 0x3A: JMP addr, SP
  else if op = 0x2A ∨ op = 0x32 ∨ op = 0x3A then
    if op &&& 0xF8 = 0x28 then
      let (w, e) := next_word e
      ({ e with cpu := { e.cpu with pc := (w + e.cpu.sp) % 65536 } }, none)
    else if op &&& 0xF8 = 0x30 then
      let (cb, e) := next_byte e
      match ConditionCode.try_from cb with
      | .error _ => (e, some (.err .InvalidCondition))
      | .ok cc =>
        if cc.meets e.cpu.flags then (e, some .panicked)
        else (e, none)
    else
      let e := push e e.cpu.pc
      let (w, e) := next_word e
      ({ e with cpu := { e.cpu with pc := (w + e.cpu.sp) % 65536 } }, none)
  -- 0x2B | 0x33 | 0x3B: MOV dst, src
  else if op = 0x2B ∨ op = 0x33 ∨ op = 0x3B then
    let (b, e) := next_byte e
    match Register.pair_from b with
    | .error _ => (e, some (.err .RegisterIndexError))
    | .ok (dst, src) =>
      if op &&& 0xF8 = 0x28 then
        ({ e with cpu := e.cpu.setReg dst (e.cpu.register src) }, none)
      else if op &&& 0xF8 = 0x30 then
        let (cb, e) := next_byte e
        match ConditionCode.try_from cb with
        | .error _ => (e, some (.err .InvalidCondition))
        | .ok cc =>
          if cc.meets e.cpu.flags then (e, some .panicked)
          else (e, none)
      else
        let e := push e (e.cpu.register dst)
        ({ e with cpu := e.cpu.setReg dst (e.cpu.register src) }, none)
  -- 0x2C-0x2F | 0x34-0x37 | 0x3C-0x3F: JMP addr, reg
  else if (0x2C ≤ op ∧ op ≤ 0x2F) ∨ (0x34 ≤ op ∧ op ≤ 0x37) ∨
      (0x3C ≤ op ∧ op ≤ 0x3F) then
    if op &&& 0xF8 = 0x28 then
      let (w, e) := next_word e
      let pc2 := (w + e.cpu.register (regLow2 (op &&& 0x3))) % 65536
      ({ e with cpu := { e.cpu with pc := pc2 } }, none)
    else if op &&& 0xF8 = 0x30 then
      let (cb, e) := next_byte e
      match ConditionCode.try_from cb with
      | .error _ => (e, some (.err .InvalidCondition))
      | .ok cc =>
        if cc.meets e.cpu.flags then (e, some .panicked)
        else (e, none)
    else
      let e := push e e.cpu.pc
      let (w, e) := next_word e
      let pc2 := (w + e.cpu.register (regLow2 (op &&& 0x3))) % 65536
      ({ e with cpu := { e.cpu with pc := pc2 } }, none)
  else (e, some (.err (.InvalidOpcode op)))

end EmuCrate

namespace EmuCrate

open Utils

/-- The all-zero memory. -/
def zeroMmu : Mmu := { ram := fun _ => 0, rom := fun _ => 0 }

/-- **C9.**  `Mmu::read_word` assembles the little-endian word from
the byte at `pos` and the byte at `(pos + 1) mod 2^16`; in particular
the word at 0xFFFF takes its low byte from the last ROM cell and its
high byte from RAM cell 0 — the address wraps instead of faulting. -/
theorem mmu_read_word_little_endian_wraps (m : Mmu) :
    (∀ pos, pos < 65536 →
      m.read_word pos = m.read_byte pos + 256 * m.read_byte ((pos + 1) % 65536)) ∧
    m.read_word 0xFFFF = m.rom 0x7FFF % 256 + 256 * (m.ram 0 % 256) := by
  have hb : ∀ p, m.read_byte p % 256 = m.read_byte p := by
    intro p
    unfold Mmu.read_byte
    split <;> omega
  constructor
  · intro pos hpos
    unfold Mmu.read_word u16_from_le
    rw [hb, hb]
  · show u16_from_le (m.read_byte 0xFFFF) (m.read_byte ((0xFFFF + 1) % 65536)) = _
    unfold Mmu.read_byte u16_from_le
    norm_num

/-- Witness for C9 at the all-zero memory and `pos = 0xFFFE`. -/
theorem mmu_read_word_little_endian_wraps_witness :
    zeroMmu.read_word 0xFFFE =
      zeroMmu.read_byte 0xFFFE + 256 * zeroMmu.read_byte ((0xFFFE + 1) % 65536) :=
  (mmu_read_word_little_endian_wraps zeroMmu).1 0xFFFE (by omega)

/-- **C6.**  `reset` installs a fresh `Cpu` (registers zeroed,
SP = 0x7F00), loads PC from the little-endian word at 0xFFFE-0xFFFF,
leaves memory untouched, and asserts HALT (bit 7) exactly when that
vector word is zero. -/
theorem reset_characterization (e : Emulator) :
    (reset e).cpu.a = 0 ∧ (reset e).cpu.b = 0 ∧ (reset e).cpu.c = 0 ∧
    (reset e).cpu.d = 0 ∧ (reset e).cpu.sp = 0x7F00 ∧
    (reset e).cpu.pc = e.memory.read_word 0xFFFE ∧
    (reset e).memory = e.memory ∧
    (reset e).cpu.flags =
      (if e.memory.read_word 0xFFFE = 0 then Flag.Halt.to_bitmask else 0) ∧
    (reset e).cpu.flags.testBit 7 = decide (e.memory.read_word 0xFFFE = 0) := by
  by_cases h : e.memory.read_word 0xFFFE = 0 <;>
    simp [reset, Cpu.new, Flag.to_bitmask, Flag.code, h,
      show Nat.testBit 128 7 = true from by decide,
      show Nat.testBit (0 ||| 1 <<< 7) 7 = true from by decide,
      show Nat.testBit 0 7 = false from by decide]

/-- The failing input of C3: RAM holds `[0x30, 0x00, 0x05]` — a
conditional relative jump whose condition byte decodes to `Z` — and
the ZERO flag is clear, so the condition fails. -/
def condFailState : Emulator :=
  { cpu := Cpu.new,
    memory :=
      { ram := fun a =>
          if a = 0 then 0x30 else if a = 1 then 0x00 else if a = 2 then 0x05 else 0,
        rom := fun _ => 0 } }

/-- **C3.**  Evaluating `step` at the failing input: the failing
conditional branch returns `Ok` with PC advanced by 2 — past the
opcode and the condition byte only, leaving PC pointing at the
unconsumed offset operand — and everything else unchanged.  The spec
requires PC = 3 (past the whole instruction). -/
theorem failing_conditional_branch_leaves_pc_at_operand :
    (step condFailState).2 = none ∧
    (step condFailState).1.cpu = { Cpu.new with pc := 2 } ∧
    (step condFailState).1.memory = condFailState.memory ∧
    (step condFailState).1.cpu.pc ≠ 3 :=
  ⟨by decide, by decide, rfl, by decide⟩

/-- The counterexample state of C4: the byte at PC is 0x40, which no
`step` arm matches. -/
def invalidOpState : Emulator :=
  { cpu := Cpu.new,
    memory := { ram := fun a => if a = 0 then 0x40 else 0, rom := fun _ => 0 } }

/-- **C4, counterexample.**  On an invalid opcode `step` returns
`Err(InvalidOpcode)`, but PC *has* advanced (from 0 to 1): decode
errors do not leave PC untouched. -/
theorem step_invalid_opcode_advances_pc_counterexample :
    (step invalidOpState).2 = some (.err (.InvalidOpcode 0x40)) ∧
    (step invalidOpState).1.cpu.pc = 1 ∧
    invalidOpState.cpu.pc = 0 := by decide

/-- The opcodes on which `Emulator::step` falls through to the final
`Err(InvalidOpcode)` arm: 0x02, 0x06, 0x12, 0x16, and every byte in
0x40-0xFF. -/
def InvalidOpcodeByte (b : Nat) : Prop :=
  b = 0x02 ∨ b = 0x06 ∨ b = 0x12 ∨ b = 0x16 ∨ (0x40 ≤ b ∧ b < 256)

/-- **C4, amended.**  When the opcode byte is invalid, `step`
propagates `Err(InvalidOpcode)` and mutates nothing except PC, which
has advanced by exactly 1 (the opcode fetch). -/
theorem step_invalid_opcode (e : Emulator) (b : Nat)
    (hb : e.memory.read_byte e.cpu.pc = b) (h : InvalidOpcodeByte b) :
    step e = ({ e with cpu := { e.cpu with pc := (e.cpu.pc + 1) % 65536 } },
      some (.err (.InvalidOpcode b))) := by
  unfold InvalidOpcodeByte at h
  unfold step next_byte
  dsimp only
  rw [hb]
  rw [if_neg (show ¬(b = 0x00) by omega), if_neg (show ¬(b = 0x01) by omega),
    if_neg (show ¬(b = 0x03) by omega), if_neg (show ¬(b = 0x04) by omega),
    if_neg (show ¬(b = 0x05) by omega), if_neg (show ¬(b = 0x07) by omega),
    if_neg (show ¬(0x08 ≤ b ∧ b ≤ 0x0B) by omega),
    if_neg (show ¬(0x0C ≤ b ∧ b ≤ 0x0F) by omega),
    if_neg (show ¬(b = 0x10) by omega), if_neg (show ¬(b = 0x11) by omega),
    if_neg (show ¬(b = 0x13) by omega), if_neg (show ¬(b = 0x14) by omega),
    if_neg (show ¬(b = 0x15) by omega), if_neg (show ¬(b = 0x17) by omega),
    if_neg (show ¬(0x18 ≤ b ∧ b ≤ 0x1B) by omega),
    if_neg (show ¬(0x1C ≤ b ∧ b ≤ 0x1F) by omega),
    if_neg (show ¬(0x20 ≤ b ∧ b ≤ 0x23) by omega),
    if_neg (show ¬(0x24 ≤ b ∧ b ≤ 0x27) by omega),
    if_neg (show ¬(b = 0x28 ∨ b = 0x30 ∨ b = 0x38) by omega),
    if_neg (show ¬(b = 0x29 ∨ b = 0x31 ∨ b = 0x39) by omega),
    if_neg (show ¬(b = 0x2A ∨ b = 0x32 ∨ b = 0x3A) by omega),
    if_neg (show ¬(b = 0x2B ∨ b = 0x33 ∨ b = 0x3B) by omega),
    if_neg (show ¬((0x2C ≤ b ∧ b ≤ 0x2F) ∨ (0x34 ≤ b ∧ b ≤ 0x37) ∨
      (0x3C ≤ b ∧ b ≤ 0x3F)) by omega)]

/-- Witness for the amended C4 at the concrete state. -/
theorem step_invalid_opcode_witness :
    step invalidOpState =
      ({ invalidOpState with
          cpu := { invalidOpState.cpu with pc := (invalidOpState.cpu.pc + 1) % 65536 } },
        some (.err (.InvalidOpcode 0x40))) :=
  step_invalid_opcode invalidOpState 0x40 (by decide) (by right; right; right; right; omega)

/-- The counterexample state of C8: opcode 0x31 (conditional absolute
jump) with condition byte 0x04 and all flags clear. -/
def cond4State : Emulator :=
  { cpu := Cpu.new,
    memory :=
      { ram := fun a =>
          if a = 0 then 0x31 else if a = 1 then 0x04
          else if a = 2 then 0x34 else if a = 3 then 0x12 else 0,
        rom := fun _ => 0 } }

set_option maxRecDepth 2048 in
/-- **C8, counterexample.**  Condition codes 0x4 and 0xC are *not*
rejected: `try_from` maps them to `B` and `AE`, and a conditional jump
whose condition byte is 0x04 completes without `InvalidCondition`. -/
theorem reserved_condition_codes_accepted_counterexample :
    ConditionCode.try_from 0x4 = .ok .B ∧
    ConditionCode.try_from 0xC = .ok .AE ∧
    (step cond4State).2 = none := by decide

set_option maxRecDepth 4096 in
/-- **C8, amended.**  `ConditionCode::try_from` accepts every 4-bit
value (0x4 as `B`, 0xC as `AE`) and rejects exactly the bytes
0x10-0xFF. -/
theorem condition_code_try_from_accepts_all_nibbles :
    (∀ b, b < 16 → ConditionCode.try_from b ≠ .error ()) ∧
    (∀ b, b < 256 → 16 ≤ b → ConditionCode.try_from b = .error ()) ∧
    ConditionCode.try_from 0x4 = .ok .B ∧
    ConditionCode.try_from 0xC = .ok .AE :=
  ⟨by decide, by decide, by decide, by decide⟩

/-- Witness for the amended C8 at the reserved code 0x4. -/
theorem condition_code_try_from_accepts_all_nibbles_witness :
    ConditionCode.try_from 0x4 ≠ .error () :=
  condition_code_try_from_accepts_all_nibbles.1 0x4 (by omega)

/-- The witness state of C10: an `LDS dst, src` instruction whose
register-pair byte 0x44 names the reserved register code 4 in both
nibbles. -/
def pairState : Emulator :=
  { cpu := Cpu.new,
    memory := { ram := fun a => if a = 0 then 0x03 else if a = 1 then 0x44 else 0,
                rom := fun _ => 0 } }

set_option maxRecDepth 2048 in
/-- **C10.**  `Register::pair_from` succeeds exactly when both nibbles
are register codes in {0,1,2,3,5,6,7}, and when it fails inside the
`LDS` arm, `step` returns `Err(RegisterIndexError)` with only PC
advanced (no panic). -/
theorem pair_from_valid_nibbles :
    (∀ b, b < 256 →
      ((Register.pair_from b ≠ .error ()) ↔
        ((b >>> 4 = 0 ∨ b >>> 4 = 1 ∨ b >>> 4 = 2 ∨ b >>> 4 = 3 ∨
          b >>> 4 = 5 ∨ b >>> 4 = 6 ∨ b >>> 4 = 7) ∧
         (b &&& 0xF = 0 ∨ b &&& 0xF = 1 ∨ b &&& 0xF = 2 ∨ b &&& 0xF = 3 ∨
          b &&& 0xF = 5 ∨ b &&& 0xF = 6 ∨ b &&& 0xF = 7)))) ∧
    (∀ e b, e.memory.read_byte e.cpu.pc = 0x03 →
      e.memory.read_byte ((e.cpu.pc + 1) % 65536) = b →
      Register.pair_from b = .error () →
      step e = ({ e with cpu := { e.cpu with pc := ((e.cpu.pc + 1) % 65536 + 1) % 65536 } },
        some (.err .RegisterIndexError))) := by
  constructor
  · decide
  · intro e b h0 h1 herr
    unfold step next_byte
    dsimp only
    rw [h0]
    norm_num
    rw [h1, herr]

set_option maxRecDepth 2048 in
/-- Witness for C10: the `LDS` arm at register-pair byte 0x44. -/
theorem pair_from_valid_nibbles_witness :
    step pairState =
      ({ pairState with
          cpu := { pairState.cpu with
            pc := ((pairState.cpu.pc + 1) % 65536 + 1) % 65536 } },
        some (.err .RegisterIndexError)) :=
  pair_from_valid_nibbles.2 pairState 0x44 (by decide) (by decide) (by decide)

end EmuCrate

namespace LibRs

/-! Flag bit numbers of `src/flag.rs` (the library crate's draft):
INTERRUPT is bit 6 and HALT bit 7. -/
namespace flag

def ZERO : Nat := 0
def SIGN : Nat := 1
def CARRY : Nat := 2
def OVERFLOW : Nat := 3
def INTERRUPT : Nat := 6
def HALT : Nat := 7

end flag

/-- `Emulator<M>` of `src/emulator.rs` with the default memory
`[u8; MEM_SIZE]` (a 64 KiB byte array, modelled as a function; cells
are `u8`, hence the `% 256` on reads and writes). -/
structure Emulator where
  a : Nat
  b : Nat
  c : Nat
  d : Nat
  pc : Nat
  sp : Nat
  flags : Nat
  memory : Nat → Nat

/-- `<[u8; N] as Memory>::read_byte`. -/
def read_byte (m : Nat → Nat) (address : Nat) : Nat := m address % 256

/-- `<[u8; N] as Memory>::read_word`: little-endian from `address` and
`address + 1` (plain `usize` addition, no wrapping). -/
def read_word (m : Nat → Nat) (address : Nat) : Nat :=
  u16_from_le (read_byte m address) (read_byte m (address + 1))

/-- `<[u8; N] as Memory>::write_byte`. -/
def write_byte (m : Nat → Nat) (address value : Nat) : Nat → Nat :=
  fun i => if i = address then value % 256 else m i

/-- `<[u8; N] as Memory>::write_word`: the array implementation writes
only the low byte (`self.write_byte(address, value as u8)`); unlike
the slice implementation it never stores the high byte. -/
def write_word (m : Nat → Nat) (address value : Nat) : Nat → Nat :=
  write_byte m address (value % 256)

/-- `Emulator::handle_interrupt`: for each of PC, FLAGS, A, B, C, D in
that order, decrement SP by 2 (wrapping) and `write_word` the register
at the new SP; then load PC from the word at 0xFFFE, set the INTERRUPT
flag and clear HALT.  The six loop iterations are unrolled. -/
def handle_interrupt (e : Emulator) : Emulator :=
  let sp1 := (e.sp + 65536 - 2) % 65536
  let m1 := write_word e.memory sp1 e.pc
  let sp2 := (sp1 + 65536 - 2) % 65536
  let m2 := write_word m1 sp2 e.flags
  let sp3 := (sp2 + 65536 - 2) % 65536
  let m3 := write_word m2 sp3 e.a
  let sp4 := (sp3 + 65536 - 2) % 65536
  let m4 := write_word m3 sp4 e.b
  let sp5 := (sp4 + 65536 - 2) % 65536
  let m5 := write_word m4 sp5 e.c
  let sp6 := (sp5 + 65536 - 2) % 65536
  let m6 := write_word m5 sp6 e.d
  { e with
    sp := sp6,
    memory := m6,
    pc := read_word m6 0xFFFE,
    flags := (e.flags ||| 1 <<< flag.INTERRUPT) &&& (0xFFFF ^^^ 1 <<< flag.HALT) }

/-- `Emulator::handle_interrupt_return`: for each of D, C, B, A,
FLAGS, PC in that order, read a word at SP and increment SP by 2
(wrapping); afterwards clear the INTERRUPT flag.  Unrolled. -/
def handle_interrupt_return (e : Emulator) : Emulator :=
  let d' := read_word e.memory e.sp
  let sp1 := (e.sp + 2) % 65536
  let c' := read_word e.memory sp1
  let sp2 := (sp1 + 2) % 65536
  let b' := read_word e.memory sp2
  let sp3 := (sp2 + 2) % 65536
  let a' := read_word e.memory sp3
  let sp4 := (sp3 + 2) % 65536
  let flags' := read_word e.memory sp4
  let sp5 := (sp4 + 2) % 65536
  let pc' := read_word e.memory sp5
  let sp6 := (sp5 + 2) % 65536
  { e with
    a := a', b := b', c := c', d := d', pc := pc', sp := sp6,
    flags := flags' &&& (0xFFFF ^^^ 1 <<< flag.INTERRUPT),
    memory := e.memory }

/-- A concrete pre-interrupt state. -/
def intState : Emulator :=
  { a := 5, b := 6, c := 7, d := 8, pc := 0x1234, sp := 0x1000,
    flags := 0, memory := fun _ => 0 }

/-- **C7, counterexample.**  `handle_interrupt` pushes six registers,
not two: SP drops by 12 (not 4), and the accumulator's value is
written to the stack. -/
theorem interrupt_pushes_full_bank_counterexample :
    (handle_interrupt intState).sp = 0x0FF4 ∧
    (handle_interrupt intState).sp ≠ 0x1000 - 4 ∧
    (handle_interrupt intState).memory (0x1000 - 6) = 5 := by decide

end LibRs

namespace LibRs

lemma tb65407 (j : Nat) (hj : j < 16) (h7 : j ≠ 7) : Nat.testBit 65407 j = true := by
  interval_cases j <;> first | decide | omega

lemma tb64 (j : Nat) (hj : j < 16) (h6 : j ≠ 6) : Nat.testBit 64 j = false := by
  interval_cases j <;> first | decide | omega

lemma handle_interrupt_sp (e : Emulator) (h12 : 12 ≤ e.sp) (hsp : e.sp < 65536) :
    (handle_interrupt e).sp = e.sp - 12 := by
  unfold handle_interrupt
  dsimp only
  omega

lemma handle_interrupt_memory (e : Emulator) (h12 : 12 ≤ e.sp) (hsp : e.sp < 65536) :
    (handle_interrupt e).memory = fun i =>
      if i = e.sp - 12 then e.d % 256
      else if i = e.sp - 10 then e.c % 256
      else if i = e.sp - 8 then e.b % 256
      else if i = e.sp - 6 then e.a % 256
      else if i = e.sp - 4 then e.flags % 256
      else if i = e.sp - 2 then e.pc % 256
      else e.memory i := by
  funext i
  unfold handle_interrupt write_word write_byte
  dsimp only
  have s1 : (e.sp + 65536 - 2) % 65536 = e.sp - 2 := by omega
  rw [s1]
  have s2 : (e.sp - 2 + 65536 - 2) % 65536 = e.sp - 4 := by omega
  rw [s2]
  have s3 : (e.sp - 4 + 65536 - 2) % 65536 = e.sp - 6 := by omega
  rw [s3]
  have s4 : (e.sp - 6 + 65536 - 2) % 65536 = e.sp - 8 := by omega
  rw [s4]
  have s5 : (e.sp - 8 + 65536 - 2) % 65536 = e.sp - 10 := by omega
  rw [s5]
  have s6 : (e.sp - 10 + 65536 - 2) % 65536 = e.sp - 12 := by omega
  rw [s6]
  have hmod : ∀ x : Nat, x % 256 % 256 = x % 256 := fun x => by omega
  simp only [hmod]

lemma handle_interrupt_flags (e : Emulator) :
    (handle_interrupt e).flags = (e.flags ||| 64) &&& 65407 := by
  unfold handle_interrupt
  dsimp only
  rw [show (1 <<< flag.INTERRUPT : Nat) = 64 from by decide,
    show (0xFFFF ^^^ 1 <<< flag.HALT : Nat) = 65407 from by decide]

lemma handle_interrupt_pc (e : Emulator) (h12 : 12 ≤ e.sp) (hsp : e.sp < 65536) :
    (handle_interrupt e).pc = read_word e.memory 0xFFFE := by
  have hpc : (handle_interrupt e).pc
      = read_word (handle_interrupt e).memory 0xFFFE := by
    unfold handle_interrupt
    dsimp only
  rw [hpc, handle_interrupt_memory e h12 hsp]
  unfold read_word read_byte
  have rla : ¬((65534 : Nat) = e.sp - 12) := by omega
  have rlb : ¬((65534 : Nat) = e.sp - 10) := by omega
  have rlc : ¬((65534 : Nat) = e.sp - 8) := by omega
  have rld : ¬((65534 : Nat) = e.sp - 6) := by omega
  have rle : ¬((65534 : Nat) = e.sp - 4) := by omega
  have rlf : ¬((65534 : Nat) = e.sp - 2) := by omega
  have rha : ¬((65535 : Nat) = e.sp - 12) := by omega
  have rhb : ¬((65535 : Nat) = e.sp - 10) := by omega
  have rhc : ¬((65535 : Nat) = e.sp - 8) := by omega
  have rhd : ¬((65535 : Nat) = e.sp - 6) := by omega
  have rhe : ¬((65535 : Nat) = e.sp - 4) := by omega
  have rhf : ¬((65535 : Nat) = e.sp - 2) := by omega
  simp [rla, rlb, rlc, rld, rle, rlf, rha, rhb, rhc, rhd, rhe, rhf]

/-- **C7, amended.**  Interrupt entry pushes PC, FLAGS, A, B, C and D
(in that order, six 2-byte SP decrements; the array `write_word`
stores only each register's low byte), loads PC from the little-endian
word at 0xFFFE, sets INTERRUPT (bit 6), clears HALT (bit 7) and leaves
the other flag bits alone; interrupt return pops D, C, B, A, FLAGS and
PC (six 2-byte SP increments) and clears INTERRUPT. -/
theorem interrupt_pushes_and_pops_full_bank :
    (∀ e : Emulator, 12 ≤ e.sp → e.sp < 65536 →
      (handle_interrupt e).sp = e.sp - 12 ∧
      (handle_interrupt e).memory (e.sp - 2) = e.pc % 256 ∧
      (handle_interrupt e).memory (e.sp - 4) = e.flags % 256 ∧
      (handle_interrupt e).memory (e.sp - 6) = e.a % 256 ∧
      (handle_interrupt e).memory (e.sp - 8) = e.b % 256 ∧
      (handle_interrupt e).memory (e.sp - 10) = e.c % 256 ∧
      (handle_interrupt e).memory (e.sp - 12) = e.d % 256 ∧
      (∀ addr, addr ≠ e.sp - 2 → addr ≠ e.sp - 4 → addr ≠ e.sp - 6 →
        addr ≠ e.sp - 8 → addr ≠ e.sp - 10 → addr ≠ e.sp - 12 →
        (handle_interrupt e).memory addr = e.memory addr) ∧
      (handle_interrupt e).pc = read_word e.memory 0xFFFE ∧
      (handle_interrupt e).flags.testBit 6 = true ∧
      (handle_interrupt e).flags.testBit 7 = false ∧
      (∀ i, i < 16 → i ≠ 6 → i ≠ 7 →
        (handle_interrupt e).flags.testBit i = e.flags.testBit i)) ∧
    (∀ e : Emulator, e.sp + 12 < 65536 →
      (handle_interrupt_return e).d = read_word e.memory e.sp ∧
      (handle_interrupt_return e).c = read_word e.memory (e.sp + 2) ∧
      (handle_interrupt_return e).b = read_word e.memory (e.sp + 4) ∧
      (handle_interrupt_return e).a = read_word e.memory (e.sp + 6) ∧
      (handle_interrupt_return e).flags
        = read_word e.memory (e.sp + 8) &&& (0xFFFF ^^^ 1 <<< 6) ∧
      (handle_interrupt_return e).pc = read_word e.memory (e.sp + 10) ∧
      (handle_interrupt_return e).sp = e.sp + 12 ∧
      (handle_interrupt_return e).memory = e.memory) := by
  constructor
  · intro e h12 hsp
    have hm := handle_interrupt_memory e h12 hsp
    have hf := handle_interrupt_flags e
    have qba : ¬(e.sp - 2 = e.sp - 4) := by omega
    have qca : ¬(e.sp - 2 = e.sp - 6) := by omega
    have qda : ¬(e.sp - 2 = e.sp - 8) := by omega
    have qea : ¬(e.sp - 2 = e.sp - 10) := by omega
    have qfa : ¬(e.sp - 2 = e.sp - 12) := by omega
    have qcb : ¬(e.sp - 4 = e.sp - 6) := by omega
    have qdb : ¬(e.sp - 4 = e.sp - 8) := by omega
    have qeb : ¬(e.sp - 4 = e.sp - 10) := by omega
    have qfb : ¬(e.sp - 4 = e.sp - 12) := by omega
    have qdc : ¬(e.sp - 6 = e.sp - 8) := by omega
    have qec : ¬(e.sp - 6 = e.sp - 10) := by omega
    have qfc : ¬(e.sp - 6 = e.sp - 12) := by omega
    have qed : ¬(e.sp - 8 = e.sp - 10) := by omega
    have qfd : ¬(e.sp - 8 = e.sp - 12) := by omega
    have qfe : ¬(e.sp - 10 = e.sp - 12) := by omega
    refine ⟨handle_interrupt_sp e h12 hsp,
      ?_, ?_, ?_, ?_, ?_, ?_, ?_, handle_interrupt_pc e h12 hsp, ?_, ?_, ?_⟩
    · rw [hm]
      simp [qba, qca, qda, qea, qfa]
    · rw [hm]
      simp [qcb, qdb, qeb, qfb]
    · rw [hm]
      simp [qdc, qec, qfc]
    · rw [hm]
      simp [qed, qfd]
    · rw [hm]
      simp [qfe]
    · rw [hm]
      simp
    · intro addr ha2 ha4 ha6 ha8 ha10 ha12
      rw [hm]
      simp [ha2, ha4, ha6, ha8, ha10, ha12]
    · rw [hf]
      simp [Nat.testBit_lor, Nat.testBit_land,
        show Nat.testBit 64 6 = true from by decide,
        show Nat.testBit 65407 6 = true from by decide]
    · rw [hf]
      simp [Nat.testBit_lor, Nat.testBit_land,
        show Nat.testBit 65407 7 = false from by decide]
    · intro i h16 h6 h7
      rw [hf]
      simp [Nat.testBit_lor, Nat.testBit_land, tb64 i h16 h6, tb65407 i h16 h7]
  · intro e hsp
    unfold handle_interrupt_return
    dsimp only
    have h2 : (e.sp + 2) % 65536 = e.sp + 2 := by omega
    rw [h2]
    have h4 : (e.sp + 2 + 2) % 65536 = e.sp + 4 := by omega
    rw [h4]
    have h6 : (e.sp + 4 + 2) % 65536 = e.sp + 6 := by omega
    rw [h6]
    have h8 : (e.sp + 6 + 2) % 65536 = e.sp + 8 := by omega
    rw [h8]
    have h10 : (e.sp + 8 + 2) % 65536 = e.sp + 10 := by omega
    rw [h10]
    have h12 : (e.sp + 10 + 2) % 65536 = e.sp + 12 := by omega
    rw [h12]
    exact ⟨rfl, rfl, rfl, rfl, rfl, rfl, rfl, rfl⟩

/-- Witness for the amended C7 at a concrete state. -/
theorem interrupt_pushes_and_pops_full_bank_witness :
    (handle_interrupt intState).sp = intState.sp - 12 ∧
      (handle_interrupt_return intState).sp = intState.sp + 12 :=
  ⟨(interrupt_pushes_and_pops_full_bank.1 intState (by decide) (by decide)).1,
    (((((((interrupt_pushes_and_pops_full_bank.2 intState
      (by decide)).2).2).2).2).2).2).1⟩

end LibRs

namespace Compile

/-- `CompileError` of `src/compile/mod.rs` (payloads of the variants
the back-patch pass cannot produce are dropped). -/
inductive CompileError where
  | IOError
  | InstructionError
  | DirectiveError
  | UndefinedSymbol (sym : String)
  | SymbolOutOfRange (sym : String) (range : Nat)
  deriving DecidableEq, Repr

/-- `u64::to_le_bytes`: the eight little-endian bytes of a symbol
value. -/
def u64_le_bytes (v : Nat) : List Nat :=
  [v % 256, v / 256 % 256, v / 256 ^ 2 % 256, v / 256 ^ 3 % 256,
   v / 256 ^ 4 % 256, v / 256 ^ 5 % 256, v / 256 ^ 6 % 256, v / 256 ^ 7 % 256]

/-- `Cursor<Vec<u8>>` at `set_position(pos)` followed by
`write_all(bytes)`: overwrite in place, zero-filling any gap when the
position exceeds the current length and extending at the end. -/
def writeAt (binary : List Nat) (pos : Nat) (bytes : List Nat) : List Nat :=
  let padded := binary ++ List.replicate (pos - binary.length) 0
  padded.take pos ++ bytes ++ padded.drop (pos + bytes.length)

/-- The back-patch loop of `compile` (`src/compile/mod.rs`, the
`for (pos, sym, len) in errata` pass).  `symbols` models the
`HashMap` lookup.  Note the faithful rendering of the range check: the
Rust code rebinds `bytes` to the truncated slice `&bytes[..len]`
*before* testing `bytes[len..]`, so the tested slice is always empty
and the `SymbolOutOfRange` branch is dead. -/
def backpatch (binary : List Nat) (errata : List (Nat × String × Nat))
    (symbols : String → Option Nat) : Except CompileError (List Nat) :=
  match errata with
  | [] => .ok binary
  | (pos, sym, len) :: rest =>
    match symbols sym with
    | none => .error (.UndefinedSymbol sym)
    | some value =>
      let bytes := (u64_le_bytes value).take len
      if (bytes.drop len).any (fun x => !(x == 0x00 || x == 0xFF)) then
        .error (.SymbolOutOfRange sym (1 <<< len))
      else
        backpatch (writeAt binary pos bytes) rest symbols

/-- The symbol table of the failing input: `L` resolves to 0x8000
(32768, far outside [-128, 255]). -/
def outOfRangeSymtab : String → Option Nat :=
  fun s => if s = "L" then some 0x8000 else none

/-- **C5.**  The back-patch pass never reports `SymbolOutOfRange`: the
range check inspects the empty slice, so a width-1 reference to a
symbol resolving to 0x8000 is silently truncated to its low byte 0x00
and compilation succeeds. -/
theorem backpatch_never_reports_symbol_out_of_range :
    backpatch [0x00] [(0, "L", 1)] outOfRangeSymtab = .ok [0x00] ∧
    (∀ binary errata symbols sym r,
      backpatch binary errata symbols ≠ .error (.SymbolOutOfRange sym r)) := by
  constructor
  · decide
  · intro binary errata symbols sym r
    induction errata generalizing binary with
    | nil => simp [backpatch]
    | cons head rest ih =>
      obtain ⟨pos, s, len⟩ := head
      unfold backpatch
      cases symbols s with
      | none => simp
      | some value =>
        have hdrop : (((u64_le_bytes value).take len).drop len) = [] := by
          apply List.drop_eq_nil_of_le
          exact List.length_take_le len _
        simp [hdrop]
        exact ih _

end Compile
